import Mathlib

/-!
# groups-scrapper: chat lookup, access-hash extraction and participant report

A shallow embedding of the callback that `main` hands to `client.Run`
(`src/main.go`, lines 75-139), together with the standard-library routines it
relies on (`regexp.FindStringSubmatch` for the one pattern used,
`strconv.ParseInt`, `strconv.Itoa`, `strings.Join`, `strings.Compare`).

Text is modelled as a list of characters.  The remote service is an input of
the run: the authentication result, the answer to `MessagesGetAllChats`, and an
oracle answering each `ChannelsGetParticipants` call.  A run yields its
observable effects (log entries, participant requests, printed lines) and the
way it ended (returned `nil`, returned an error, or panicked).
-/

namespace GroupsScrapper

/-- Go strings, as lists of characters. -/
abbrev Text := List Char

/-! ## Machine integers -/

/-- Number of values of a 64-bit word. -/
def two64 : Nat := 2 ^ 64

/-- Largest `uint64`. -/
def maxUint64 : Nat := 2 ^ 64 - 1

/-- Smallest `int64`. -/
def minInt64 : Int := -(2 ^ 63)

/-- Largest `int64`. -/
def maxInt64 : Int := 2 ^ 63 - 1

/-- Conversion `int64(u)` of an unsigned 64-bit word (two's complement). -/
def toInt64 (u : Nat) : Int :=
  if u % two64 < 2 ^ 63 then ((u % two64 : Nat) : Int) else ((u % two64 : Nat) : Int) - (two64 : Int)

/-- Conversion `uint64(i)` of a signed 64-bit integer. -/
def toUint64 (i : Int) : Nat := (i % (two64 : Int)).toNat

/-- Negation `-n` on `int64`, wrapping. -/
def negInt64 (n : Int) : Int := toInt64 (toUint64 (-n))

/-! ## `strconv.ParseInt(s, 10, 64)` -/

/-- The two causes carried by a `*strconv.NumError`. -/
inductive NumErrKind
  | ErrSyntax
  | ErrRange
  deriving DecidableEq, Repr

/-- `strconv.NumError`: failing function, its argument, and the cause. -/
structure NumError where
  Func : Text
  Num : Text
  Err : NumErrKind
  deriving DecidableEq, Repr

/-- Errors a run can return: an error reported by the client library (for
authentication or a remote call), or the `*strconv.NumError` of `ParseInt`. -/
inductive Error
  | remote (msg : Text)
  | num (e : NumError)
  deriving DecidableEq, Repr

/-- The number base passed by `main`. -/
def base : Nat := 10

/-- `lower(c)` of `strconv`: `c | ('x' - 'X')`, on code points. -/
def lower (c : Nat) : Nat := c ||| 32

/-- The digit value `strconv.ParseUint` assigns to a character, `none` for the
`default` case of its switch (the base is given, so no underscores). -/
def digitOf (c : Char) : Option Nat :=
  if 48 ≤ c.toNat ∧ c.toNat ≤ 57 then some (c.toNat - 48)
  else if 97 ≤ lower c.toNat ∧ lower c.toNat ≤ 122 then some (lower c.toNat - 97 + 10)
  else none

/-- `cutoff` of `ParseUint`: the smallest `n` with `n * base` overflowing. -/
def cutoffU : Nat := maxUint64 / base + 1

/-- The digit loop of `strconv.ParseUint` with accumulator `n`; `s0` is the
original argument, kept for the error value.  On a range error Go returns
`maxVal` together with the error. -/
def parseUintLoop (s0 : Text) : Nat → Text → Nat × Option NumError
  | n, [] => (n, none)
  | n, c :: cs =>
    match digitOf c with
    | none => (0, some ⟨"ParseUint".toList, s0, NumErrKind.ErrSyntax⟩)
    | some d =>
      if d ≥ base then (0, some ⟨"ParseUint".toList, s0, NumErrKind.ErrSyntax⟩)
      else if n ≥ cutoffU then
        (maxUint64, some ⟨"ParseUint".toList, s0, NumErrKind.ErrRange⟩)
      else
        let n10 := (n * base) % two64
        let n1 := (n10 + d) % two64
        if n1 < n10 ∨ n1 > maxUint64 then
          (maxUint64, some ⟨"ParseUint".toList, s0, NumErrKind.ErrRange⟩)
        else parseUintLoop s0 n1 cs

/-- `strconv.ParseUint(s, 10, 64)`: value and error. -/
def ParseUint (s : Text) : Nat × Option NumError :=
  if s = [] then (0, some ⟨"ParseUint".toList, s, NumErrKind.ErrSyntax⟩)
  else parseUintLoop s 0 s

/-- `strconv.ParseInt(s, 10, 64)`: value and error. -/
def ParseInt (s : Text) : Int × Option NumError :=
  match s with
  | [] => (0, some ⟨"ParseInt".toList, s, NumErrKind.ErrSyntax⟩)
  | c :: cs =>
    let neg : Bool := c = '-'
    let body : Text := if c = '+' ∨ c = '-' then cs else c :: cs
    let r := ParseUint body
    let un := r.1
    let rejected : Option NumError :=
      match r.2 with
      | some e => if e.Err ≠ NumErrKind.ErrRange then some ⟨"ParseInt".toList, s, e.Err⟩ else none
      | none => none
    match rejected with
    | some e => (0, some e)
    | none =>
      let cutoff : Nat := 2 ^ 63
      if neg = false ∧ un ≥ cutoff then
        (maxInt64, some ⟨"ParseInt".toList, s, NumErrKind.ErrRange⟩)
      else if neg = true ∧ un > cutoff then
        (minInt64, some ⟨"ParseInt".toList, s, NumErrKind.ErrRange⟩)
      else
        let n := toInt64 un
        (if neg then negInt64 n else n, none)

/-! ## `strconv.Itoa` -/

/-- The character of a decimal digit. -/
def digitChar (d : Nat) : Char := Char.ofNat (48 + d)

/-- Decimal digits of `u`, most significant first, pushed in front of `acc`;
`fuel` bounds the number of digits. -/
def digitsAux : Nat → Nat → Text → Text
  | 0, _, acc => acc
  | fuel + 1, u, acc =>
    if u < 10 then digitChar u :: acc
    else digitsAux fuel (u / 10) (digitChar (u % 10) :: acc)

/-- Decimal digits of an unsigned 64-bit word (at most twenty). -/
def natDigits (u : Nat) : Text := digitsAux 20 u []

/-- `formatBits` of `strconv` in base 10: the word `u` is `uint64(i)`; when
`neg` it is negated as a `uint64` and a minus sign is put in front. -/
def formatBits (u : Nat) (neg : Bool) : Text :=
  if neg then '-' :: natDigits ((two64 - u) % two64) else natDigits u

/-- `strconv.Itoa(int(i))` on a platform with 64-bit `int`. -/
def Itoa (i : Int) : Text := formatBits (toUint64 i) (decide (i < 0))

/-! ## `regexp.MustCompile("AccessHash:(-*\\d*)").FindStringSubmatch` -/

/-- The literal the pattern starts with. -/
def label : Text := "AccessHash:".toList

/-- Class `\d` of Go regular expressions: the ASCII digits. -/
def isDigit (c : Char) : Bool := decide (48 ≤ c.toNat ∧ c.toNat ≤ 57)

/-- The first capture group `(-*\d*)` matched at the start of `s`: the longest
run of `-`, then the longest run of digits (both stars are greedy and the
group never fails, so no backtracking takes place). -/
def captureGroup (s : Text) : Text :=
  s.takeWhile (fun c => c == '-') ++ (s.dropWhile (fun c => c == '-')).takeWhile isDigit

/-- The pattern anchored at the start of `s`: whole match and first group. -/
def matchHere (s : Text) : Option (List Text) :=
  if label.isPrefixOf s then
    let g := captureGroup (s.drop label.length)
    some [label ++ g, g]
  else none

/-- `FindStringSubmatch`: the leftmost match of the pattern, as the list of the
whole match and the first group; the empty list (`nil`) when nothing matches. -/
def FindStringSubmatch : Text → List Text
  | [] => (matchHere []).getD []
  | c :: cs =>
    match matchHere (c :: cs) with
    | some m => m
    | none => FindStringSubmatch cs

/-! ## `strings.Join`, `strings.Compare` -/

/-- `strings.Join(elems, sep)`. -/
def Join : List Text → Text → Text
  | [], _ => []
  | [a], _ => a
  | a :: b :: rest, sep => a ++ sep ++ Join (b :: rest) sep

/-- `strings.Compare(a, b)`. -/
def Compare (a b : Text) : Int :=
  if a = b then 0 else if a < b then -1 else 1

/-! ## Records of the client library -/

/-- A `tg.FullChat`: what `AsFull` yields, with `GetID` and `GetTitle`. -/
structure FullChat where
  id : Int
  title : Text
  deriving DecidableEq, Repr

/-- A `tg.ChatClass` value, through the three methods `main` calls on it:
`GetID()`, `String()` (the debug text) and `AsFull()`. -/
structure Chat where
  id : Int
  str : Text
  asFull : Option FullChat
  deriving DecidableEq, Repr

/-- A `tg.UserClass` value: `*tg.UserEmpty`, or `*tg.User` with `GetID` and the
optional `GetUsername` and `GetPhone`. -/
inductive UserClass
  | userEmpty (id : Int)
  | user (id : Int) (username : Option Text) (phone : Option Text)
  deriving DecidableEq, Repr

/-- A `tg.ChannelsChannelParticipantsClass` value. -/
inductive ChannelParticipantsClass
  | notModified
  | participants (users : List UserClass)
  deriving DecidableEq, Repr

/-- `AsModified()`: the participant set, and whether there is one. -/
def ChannelParticipantsClass.AsModified : ChannelParticipantsClass → Option (List UserClass) × Bool
  | .notModified => (none, false)
  | .participants us => (some us, true)

/-- `GetUsers()` on the pointer `AsModified` returned; the generated getter
answers the zero value on a nil receiver. -/
def GetUsers : Option (List UserClass) → List UserClass
  | none => []
  | some us => us

/-- The `tg.InputChannel` of a `ChannelsGetParticipantsRequest` (the filter is
always `ChannelParticipantsRecent`). -/
structure InputChannel where
  ChannelID : Int
  AccessHash : Int
  deriving DecidableEq, Repr

/-- The remote service as seen by one run: the result of
`client.Auth().IfNecessary`, the result of `MessagesGetAllChats`, and the
answer to the `k`-th (from 0) `ChannelsGetParticipants` call of the run. -/
structure Remote where
  auth : Option Error
  getAllChats : Except Error (List Chat)
  getParticipants : Nat → InputChannel → Except Error ChannelParticipantsClass

/-! ## Effects and outcomes -/

/-- Log levels used by `main`. -/
inductive Level
  | info
  | error
  deriving DecidableEq, Repr

/-- A `zap` field. -/
inductive Field
  | String (key : Text) (val : Text)
  | Int64 (key : Text) (val : Int)
  deriving DecidableEq, Repr

/-- One call of `log.Info` or `log.Error`. -/
structure LogEntry where
  level : Level
  msg : Text
  fields : List Field
  deriving DecidableEq, Repr

/-- What a stretch of the run did: log entries, `ChannelsGetParticipants`
requests sent, and arguments of `fmt.Println`, each in order. -/
structure Effects where
  log : List LogEntry
  requests : List InputChannel
  printed : List Text
  deriving DecidableEq, Repr

/-- Nothing done. -/
def Effects.none : Effects := ⟨[], [], []⟩

/-- One after the other. -/
def Effects.append (a b : Effects) : Effects :=
  ⟨a.log ++ b.log, a.requests ++ b.requests, a.printed ++ b.printed⟩

/-- How a stretch of the run ended: it went on to its end (for the callback:
`return nil`), it returned an error, or it panicked. -/
inductive Outcome
  | ok
  | failed (e : Error)
  | panicked
  deriving DecidableEq, Repr

/-- A log entry on its own. -/
def logged (level : Level) (msg : String) (fields : List Field) : Effects :=
  ⟨[⟨level, msg.toList, fields⟩], [], []⟩

/-! ## The callback of `main` -/

/-- Target title of the source. -/
def ChatTitleToParse : Text := "channel title to parse".toList

/-- Lines 122-134: the loop over `participants.GetUsers()`.  The assertion
`user.(*tg.User)` panics on a `*tg.UserEmpty`. -/
def reportUsers : List UserClass → Effects × Outcome
  | [] => (Effects.none, Outcome.ok)
  | UserClass.userEmpty _ :: _ => (Effects.none, Outcome.panicked)
  | UserClass.user id username phone :: rest =>
    let here : Effects :=
      match username with
      | none =>
        let noPhone : Effects :=
          match phone with
          | none => logged Level.error "cannot get user name or phone" []
          | some _ => Effects.none
        noPhone.append
          ⟨[], [], [Join ["UserId:".toList, Itoa id, "Phone:".toList, phone.getD []] " ".toList]⟩
      | some currentUserName =>
        ⟨[], [], [Join ["UserId:".toList, Itoa id, "Username:".toList, currentUserName] " ".toList]⟩
    let r := reportUsers rest
    (here.append r.1, r.2)

/-- Lines 97-99: the access hash scraped from the chat text.  Indexing the
result of `FindStringSubmatch` at 1 panics when it is `nil`; otherwise the
value and error of `ParseInt` on the first group. -/
def extractAccessHash (s : Text) : Option (Int × Option NumError) :=
  match (FindStringSubmatch s).get? 1 with
  | none => none
  | some chatAccessHashString => some (ParseInt chatAccessHashString)

/-- Lines 87-135: one iteration of the loop over the chats; `k` is the number
of participant requests sent so far. -/
def visitChat (title : Text) (remote : Remote) (k : Nat) (chat : Chat) : Effects × Outcome :=
  match chat.asFull with
  | none => (logged Level.error "chat as full" [Field.String "chat".toList chat.str], Outcome.ok)
  | some fc =>
    let shown := logged Level.info "show chat"
      [Field.Int64 "id".toList fc.id, Field.String "name".toList fc.title]
    if Compare fc.title title = 0 then
      match extractAccessHash chat.str with
      | none => (shown, Outcome.panicked)
      | some (_, some err) =>
        (shown.append
          (logged Level.error "error while converting chat access hash from string to int64" []),
         Outcome.failed (Error.num err))
      | some (chatAccessHash, none) =>
        let req : InputChannel := ⟨chat.id, chatAccessHash⟩
        let sent : Effects := shown.append ⟨[], [req], []⟩
        match remote.getParticipants k req with
        | Except.error err =>
          (sent.append (logged Level.error "error while getting channel's participants" []),
           Outcome.failed err)
        | Except.ok res =>
          let participants := res.AsModified
          let unmapped : Effects :=
            if participants.2 then Effects.none
            else logged Level.error "error while mapping parts" []
          let r := reportUsers (GetUsers participants.1)
          ((sent.append unmapped).append r.1, r.2)
    else (shown, Outcome.ok)

/-- Lines 87-138: the loop over `chats.GetChats()` and the final `return nil`. -/
def scanChats (title : Text) (remote : Remote) : Nat → List Chat → Effects × Outcome
  | _, [] => (Effects.none, Outcome.ok)
  | k, chat :: rest =>
    let r := visitChat title remote k chat
    match r.2 with
    | Outcome.ok =>
      let r2 := scanChats title remote (k + r.1.requests.length) rest
      (r.1.append r2.1, r2.2)
    | o => (r.1, o)

/-- Lines 75-139: the callback passed to `client.Run`, for a target title. -/
def run (title : Text) (remote : Remote) : Effects × Outcome :=
  match remote.auth with
  | some err => (Effects.none, Outcome.failed err)
  | none =>
    let authed := logged Level.info "Success auth" []
    match remote.getAllChats with
    | Except.error err =>
      (authed.append (logged Level.error "get all chats" []), Outcome.failed err)
    | Except.ok chats =>
      let r := scanChats title remote 0 chats
      (authed.append r.1, r.2)

/-- The callback of `main`, with the title of the source. -/
def mainRun (remote : Remote) : Effects × Outcome := run ChatTitleToParse remote

/-! ## Decimal text -/

/-- Value of a digit string read in base 10, starting from `n`. -/
def decValFrom (n : Nat) (ds : Text) : Nat :=
  ds.foldl (fun a c => a * 10 + (c.toNat - 48)) n

/-- Value of a digit string read in base 10. -/
def decVal (ds : Text) : Nat := decValFrom 0 ds

/-- Decimal rendering of an integer: an optional single `-`, then the digits
of the absolute value. -/
def decimal (n : Int) : Text :=
  if n < 0 then '-' :: Nat.toDigits 10 n.natAbs else Nat.toDigits 10 n.toNat

/-! ## Lemmas on digits -/

theorem two64_eq : two64 = 18446744073709551616 := by decide

theorem maxUint64_eq : maxUint64 = 18446744073709551615 := by decide

theorem cutoffU_eq : cutoffU = 1844674407370955162 := by decide

theorem base_eq : base = 10 := rfl

theorem digitChar_toNat (d : Nat) (h : d < 10) : (digitChar d).toNat = 48 + d := by
  interval_cases d <;> decide

theorem isDigit_digitChar (d : Nat) (h : d < 10) : isDigit (digitChar d) = true := by
  simp [isDigit, digitChar_toNat d h]
  omega

theorem digitChar_eq_nat (d : Nat) (h : d < 10) : Nat.digitChar d = digitChar d := by
  interval_cases d <;> decide

theorem digitOf_of_isDigit {c : Char} (h : isDigit c = true) :
    digitOf c = some (c.toNat - 48) := by
  simp [isDigit] at h
  simp [digitOf, h]

theorem isDigit_bound {c : Char} (h : isDigit c = true) : c.toNat - 48 < 10 := by
  simp [isDigit] at h
  omega

theorem isDigit_ne_dash {c : Char} (h : isDigit c = true) : c ≠ '-' := by
  intro hc
  subst hc
  revert h
  decide

theorem decValFrom_cons (n : Nat) (c : Char) (cs : Text) :
    decValFrom n (c :: cs) = decValFrom (n * 10 + (c.toNat - 48)) cs := rfl

theorem decValFrom_append (n : Nat) (a b : Text) :
    decValFrom n (a ++ b) = decValFrom (decValFrom n a) b := by
  simp [decValFrom, List.foldl_append]

theorem le_decValFrom (cs : Text) : ∀ n, n ≤ decValFrom n cs := by
  induction cs with
  | nil => intro n; exact Nat.le_refl n
  | cons c cs ih =>
    intro n
    rw [decValFrom_cons]
    have := ih (n * 10 + (c.toNat - 48))
    omega

/-- On a string of digits the loop of `ParseUint` yields the value read, or a
range error exactly when that value does not fit 64 bits. -/
theorem parseUintLoop_digits (s0 : Text) (cs : Text) :
    ∀ n, (∀ c ∈ cs, isDigit c = true) → n < two64 →
      parseUintLoop s0 n cs =
        if decValFrom n cs < two64 then (decValFrom n cs, none)
        else (maxUint64, some ⟨"ParseUint".toList, s0, NumErrKind.ErrRange⟩) := by
  induction cs with
  | nil =>
    intro n _ hn
    simp [parseUintLoop, decValFrom, hn]
  | cons c cs ih =>
    intro n hall hn
    have hc : isDigit c = true := hall c (List.mem_cons_self c cs)
    have hcs : ∀ x ∈ cs, isDigit x = true := fun x hx => hall x (List.mem_cons_of_mem c hx)
    have hd := isDigit_bound hc
    have hmono := le_decValFrom cs (n * 10 + (c.toNat - 48))
    rw [two64_eq] at hn
    unfold parseUintLoop
    rw [digitOf_of_isDigit hc, decValFrom_cons]
    simp only [base_eq, cutoffU_eq, two64_eq, maxUint64_eq]
    rw [if_neg (by omega)]
    by_cases hcut : n ≥ 1844674407370955162
    · rw [if_pos hcut, if_neg (by omega)]
    · rw [if_neg hcut]
      have h10 : n * 10 % 18446744073709551616 = n * 10 := Nat.mod_eq_of_lt (by omega)
      simp only [h10]
      by_cases hov : n * 10 + (c.toNat - 48) < 18446744073709551616
      · have h1 : (n * 10 + (c.toNat - 48)) % 18446744073709551616 = n * 10 + (c.toNat - 48) :=
          Nat.mod_eq_of_lt hov
        simp only [h1]
        rw [if_neg (by omega)]
        have := ih (n * 10 + (c.toNat - 48)) hcs (by rw [two64_eq]; exact hov)
        simpa only [two64_eq, maxUint64_eq] using this
      · rw [if_pos (by omega), if_neg (by omega)]

theorem digitsAux_succ (fuel u : Nat) (acc : Text) :
    digitsAux (fuel + 1) u acc =
      if u < 10 then digitChar u :: acc
      else digitsAux fuel (u / 10) (digitChar (u % 10) :: acc) := rfl

/-- Digits pushed in front of an accumulator are the digits, then the accumulator. -/
theorem digitsAux_acc (fuel : Nat) :
    ∀ u acc, digitsAux (fuel + 1) u acc = digitsAux (fuel + 1) u [] ++ acc := by
  induction fuel with
  | zero =>
    intro u acc
    simp only [digitsAux]
    split <;> simp
  | succ f ih =>
    intro u acc
    rw [digitsAux_succ (f + 1) u acc, digitsAux_succ (f + 1) u []]
    split
    · simp
    · rw [ih (u / 10) (digitChar (u % 10) :: acc), ih (u / 10) [digitChar (u % 10)]]
      simp

/-- With enough fuel, the digits produced are digits, there is at least one,
and they read back as the number. -/
theorem digitsAux_spec (fuel : Nat) :
    ∀ u, u < 10 ^ (fuel + 1) →
      (∀ c ∈ digitsAux (fuel + 1) u [], isDigit c = true) ∧
      digitsAux (fuel + 1) u [] ≠ [] ∧
      decValFrom 0 (digitsAux (fuel + 1) u []) = u := by
  induction fuel with
  | zero =>
    intro u hu
    have hu10 : u < 10 := by simpa using hu
    simp only [digitsAux, if_pos hu10]
    refine ⟨?_, by simp, ?_⟩
    · intro c hc
      simp at hc
      subst hc
      exact isDigit_digitChar u hu10
    · simp [decValFrom, digitChar_toNat u hu10]
  | succ f ih =>
    intro u hu
    rw [digitsAux]
    split
    · rename_i hu10
      refine ⟨?_, by simp, ?_⟩
      · intro c hc
        simp at hc
        subst hc
        exact isDigit_digitChar u hu10
      · simp [decValFrom, digitChar_toNat u hu10]
    · rename_i hu10
      have hlt : u / 10 < 10 ^ (f + 1) := by
        rw [Nat.div_lt_iff_lt_mul (by decide)]
        simpa [pow_succ] using hu
      obtain ⟨h1, h2, h3⟩ := ih (u / 10) hlt
      have hm : u % 10 < 10 := Nat.mod_lt u (by decide)
      rw [digitsAux_acc f (u / 10) [digitChar (u % 10)]]
      refine ⟨?_, by simp [h2], ?_⟩
      · intro c hc
        rcases List.mem_append.mp hc with hc | hc
        · exact h1 c hc
        · simp at hc
          subst hc
          exact isDigit_digitChar _ hm
      · rw [decValFrom_append, h3]
        simp [decValFrom, digitChar_toNat _ hm]
        omega

theorem natDigits_spec (u : Nat) (hu : u < two64) :
    (∀ c ∈ natDigits u, isDigit c = true) ∧ natDigits u ≠ [] ∧ decVal (natDigits u) = u := by
  have : u < 10 ^ (19 + 1) := by
    rw [two64_eq] at hu
    have : (18446744073709551616 : Nat) < 10 ^ (19 + 1) := by norm_num
    omega
  exact digitsAux_spec 19 u this

/-- The digits of the model agree with the decimal digits of the Lean library. -/
theorem toDigitsCore_eq_digitsAux (f : Nat) :
    ∀ g u acc, u < g → u < 10 ^ (f + 1) →
      Nat.toDigitsCore 10 g u acc = digitsAux (f + 1) u acc := by
  induction f with
  | zero =>
    intro g u acc hg hu
    have hu10 : u < 10 := by simpa using hu
    obtain ⟨g, rfl⟩ : ∃ k, g = k + 1 := ⟨g - 1, by omega⟩
    have hdiv : u / 10 = 0 := by omega
    have hmod : u % 10 = u := by omega
    simp [Nat.toDigitsCore, digitsAux, hdiv, hmod, hu10, digitChar_eq_nat u hu10]
  | succ f ih =>
    intro g u acc hg hu
    obtain ⟨g, rfl⟩ : ∃ k, g = k + 1 := ⟨g - 1, by omega⟩
    have hm : u % 10 < 10 := Nat.mod_lt u (by decide)
    by_cases hu10 : u < 10
    · have hdiv : u / 10 = 0 := by omega
      have hmod : u % 10 = u := by omega
      simp [Nat.toDigitsCore, digitsAux, hdiv, hmod, hu10, digitChar_eq_nat u hu10]
    · have hdiv : u / 10 ≠ 0 := by omega
      have hlt : u / 10 < 10 ^ (f + 1) := by
        rw [Nat.div_lt_iff_lt_mul (by decide)]
        simpa [pow_succ] using hu
      rw [Nat.toDigitsCore, digitsAux_succ (f + 1) u acc]
      simp only [hdiv, if_false, hu10, digitChar_eq_nat _ hm]
      exact ih g (u / 10) _ (by omega) hlt

theorem toDigits_eq_natDigits (u : Nat) (hu : u < two64) : Nat.toDigits 10 u = natDigits u := by
  have : u < 10 ^ (19 + 1) := by
    rw [two64_eq] at hu
    have : (18446744073709551616 : Nat) < 10 ^ (19 + 1) := by norm_num
    omega
  exact toDigitsCore_eq_digitsAux 19 (u + 1) u [] (Nat.lt_succ_self u) this

/-! ## `ParseInt` on signed digit strings -/

theorem ParseUint_digits (ds : Text) (hne : ds ≠ []) (hall : ∀ c ∈ ds, isDigit c = true) :
    ParseUint ds =
      if decVal ds < two64 then (decVal ds, none)
      else (maxUint64, some ⟨"ParseUint".toList, ds, NumErrKind.ErrRange⟩) := by
  unfold ParseUint
  rw [if_neg hne]
  exact parseUintLoop_digits ds ds 0 hall (by rw [two64_eq]; decide)

theorem toInt64_small (u : Nat) (h : u < 2 ^ 63) : toInt64 u = (u : Int) := by
  unfold toInt64
  rw [two64_eq]
  have : u % 18446744073709551616 = u := Nat.mod_eq_of_lt (by omega)
  rw [this, if_pos h]

theorem negInt64_toInt64 (u : Nat) (h : u ≤ 2 ^ 63) : negInt64 (toInt64 u) = -(u : Int) := by
  unfold negInt64 toUint64 toInt64
  rw [two64_eq]
  have hu : u % 18446744073709551616 = u := Nat.mod_eq_of_lt (by omega)
  rw [hu]
  split <;> split <;> push_cast at * <;> omega

theorem pow63_eq : (2 : Nat) ^ 63 = 9223372036854775808 := by norm_num

/-- An unsigned digit string parses to its value when below `2^63`, and fails
with a range error otherwise. -/
theorem ParseInt_digits (ds : Text) (hne : ds ≠ []) (hall : ∀ c ∈ ds, isDigit c = true) :
    ParseInt ds =
      if decVal ds < 2 ^ 63 then (((decVal ds : Nat) : Int), none)
      else (maxInt64, some ⟨"ParseInt".toList, ds, NumErrKind.ErrRange⟩) := by
  obtain ⟨c, cs, rfl⟩ := List.exists_cons_of_ne_nil hne
  have hc : isDigit c = true := hall c (List.mem_cons_self c cs)
  have hdash : c ≠ '-' := isDigit_ne_dash hc
  have hplus : c ≠ '+' := by
    intro h
    subst h
    revert hc
    decide
  unfold ParseInt
  simp only [hdash, hplus, or_self, if_false, decide_False]
  rw [ParseUint_digits (c :: cs) hne hall, two64_eq, maxUint64_eq, pow63_eq]
  by_cases hfit : decVal (c :: cs) < 18446744073709551616
  · by_cases h63 : decVal (c :: cs) < 9223372036854775808
    · have h63n : ¬ (9223372036854775808 ≤ decVal (c :: cs)) := by omega
      simp [hfit, h63, h63n, toInt64_small _ (pow63_eq ▸ h63)]
    · have h63n : 9223372036854775808 ≤ decVal (c :: cs) := by omega
      simp [hfit, h63, h63n]
  · have h63 : ¬ decVal (c :: cs) < 9223372036854775808 := by omega
    simp [hfit, h63]

/-- A digit string after one minus sign parses to the negated value when the
value is at most `2^63`, and fails with a range error otherwise. -/
theorem ParseInt_neg_digits (ds : Text) (hne : ds ≠ []) (hall : ∀ c ∈ ds, isDigit c = true) :
    ParseInt ('-' :: ds) =
      if decVal ds ≤ 2 ^ 63 then (-((decVal ds : Nat) : Int), none)
      else (minInt64, some ⟨"ParseInt".toList, '-' :: ds, NumErrKind.ErrRange⟩) := by
  unfold ParseInt
  simp only [or_true, if_true, decide_True]
  rw [ParseUint_digits ds hne hall, two64_eq, maxUint64_eq, pow63_eq]
  by_cases hfit : decVal ds < 18446744073709551616
  · by_cases h63 : decVal ds ≤ 9223372036854775808
    · have h63n : ¬ (9223372036854775808 < decVal ds) := by omega
      simp [hfit, h63, h63n, negInt64_toInt64 _ (pow63_eq ▸ h63)]
    · have h63n : 9223372036854775808 < decVal ds := by omega
      simp [hfit, h63, h63n]
  · have h63 : ¬ decVal ds ≤ 9223372036854775808 := by omega
    simp [hfit, h63]

/-! ## Rendering and reading back -/

theorem int64_natAbs_lt (i : Int) (hlo : minInt64 ≤ i) (hhi : i ≤ maxInt64) :
    i.natAbs < two64 ∧ i.toNat < two64 := by
  rw [two64_eq]
  unfold minInt64 at hlo
  unfold maxInt64 at hhi
  omega

/-- On the `int64` range `Itoa` is the decimal rendering. -/
theorem Itoa_eq_decimal (i : Int) (hlo : minInt64 ≤ i) (hhi : i ≤ maxInt64) :
    Itoa i = decimal i := by
  obtain ⟨habs, hnat⟩ := int64_natAbs_lt i hlo hhi
  unfold Itoa formatBits decimal
  by_cases hneg : i < 0
  · have hw : (two64 - toUint64 i) % two64 = i.natAbs := by
      unfold toUint64
      rw [two64_eq] at habs ⊢
      unfold minInt64 at hlo
      omega
    simp only [hneg, decide_True, if_true, hw]
    rw [toDigits_eq_natDigits _ habs]
  · have hw : toUint64 i = i.toNat := by
      unfold toUint64
      rw [two64_eq] at hnat ⊢
      omega
    simp only [hneg, decide_False, if_false, hw]
    rw [toDigits_eq_natDigits _ hnat]
    simp

/-- Reading back the decimal rendering of an `int64` gives the number. -/
theorem ParseInt_decimal (n : Int) (hlo : minInt64 ≤ n) (hhi : n ≤ maxInt64) :
    ParseInt (decimal n) = (n, none) := by
  obtain ⟨habs, hnat⟩ := int64_natAbs_lt n hlo hhi
  unfold decimal
  by_cases hneg : n < 0
  · obtain ⟨h1, h2, h3⟩ := natDigits_spec _ habs
    rw [if_pos hneg, toDigits_eq_natDigits _ habs, ParseInt_neg_digits _ h2 h1, h3]
    have : n.natAbs ≤ 2 ^ 63 := by
      unfold minInt64 at hlo
      omega
    rw [if_pos this]
    congr 1
    omega
  · obtain ⟨h1, h2, h3⟩ := natDigits_spec _ hnat
    rw [if_neg hneg, toDigits_eq_natDigits _ hnat, ParseInt_digits _ h2 h1, h3]
    have : n.toNat < 2 ^ 63 := by
      unfold maxInt64 at hhi
      omega
    rw [if_pos this]
    congr 1
    omega

/-! ## The pattern -/

theorem takeWhile_append_stop {p : Char → Bool} (ds rest : Text)
    (hall : ∀ c ∈ ds, p c = true) (hstop : ∀ c, rest.head? = some c → p c = false) :
    (ds ++ rest).takeWhile p = ds := by
  induction ds with
  | nil =>
    cases rest with
    | nil => rfl
    | cons r rs => simp [List.takeWhile, hstop r rfl]
  | cons d ds ih =>
    have hd : p d = true := hall d (List.mem_cons_self d ds)
    simp only [List.cons_append, List.takeWhile_cons, hd, if_true]
    rw [ih (fun c hc => hall c (List.mem_cons_of_mem d hc))]

/-- The group read in front of a nonempty digit string that is not followed by
a digit is that string. -/
theorem captureGroup_digits (ds rest : Text) (hne : ds ≠ [])
    (hall : ∀ c ∈ ds, isDigit c = true) (hstop : ∀ c, rest.head? = some c → isDigit c = false) :
    captureGroup (ds ++ rest) = ds := by
  obtain ⟨d, ds, rfl⟩ := List.exists_cons_of_ne_nil hne
  have hd : isDigit d = true := hall d (List.mem_cons_self d ds)
  have hdash : (d == '-') = false := by
    simpa using isDigit_ne_dash hd
  have := takeWhile_append_stop (d :: ds) rest hall hstop
  simp only [List.cons_append] at this
  simp [captureGroup, List.takeWhile_cons, List.dropWhile_cons, hdash, this]

/-- The group read in front of one minus sign and a nonempty digit string that
is not followed by a digit is the sign and the string. -/
theorem captureGroup_neg_digits (ds rest : Text) (hne : ds ≠ [])
    (hall : ∀ c ∈ ds, isDigit c = true) (hstop : ∀ c, rest.head? = some c → isDigit c = false) :
    captureGroup ('-' :: (ds ++ rest)) = '-' :: ds := by
  have h := captureGroup_digits ds rest hne hall hstop
  unfold captureGroup at h ⊢
  simp only [List.takeWhile_cons, List.dropWhile_cons, beq_self_eq_true, if_true, List.cons_append]
  rw [h]

theorem matchHere_label (t : Text) :
    matchHere (label ++ t) = some [label ++ captureGroup t, captureGroup t] := by
  unfold matchHere
  have hp : label.isPrefixOf (label ++ t) = true := by
    rw [List.isPrefixOf_iff_prefix]
    exact List.prefix_append label t
  simp [hp]

theorem matchHere_none (s : Text) (h : ∀ b, s ≠ label ++ b) : matchHere s = none := by
  unfold matchHere
  have hp : label.isPrefixOf s = false := by
    cases hq : label.isPrefixOf s with
    | false => rfl
    | true =>
      rw [List.isPrefixOf_iff_prefix] at hq
      obtain ⟨b, hb⟩ := hq
      exact absurd hb.symm (h b)
  simp [hp]

theorem FindStringSubmatch_cons_none (c : Char) (cs : Text) (h : matchHere (c :: cs) = none) :
    FindStringSubmatch (c :: cs) = FindStringSubmatch cs := by
  simp [FindStringSubmatch, h]

/-- The match reported is the one at the leftmost occurrence of the label. -/
theorem FindStringSubmatch_leftmost (pre : Text) : ∀ t : Text,
    (∀ a b, pre ++ (label ++ t) = a ++ (label ++ b) → pre.length ≤ a.length) →
    FindStringSubmatch (pre ++ (label ++ t)) = [label ++ captureGroup t, captureGroup t] := by
  induction pre with
  | nil =>
    intro t _
    have hm := matchHere_label t
    simp only [List.nil_append]
    cases hl : label ++ t with
    | nil =>
      have : label ++ t ≠ [] := by simp [label]
      exact absurd hl this
    | cons c cs =>
      rw [hl] at hm
      simp [FindStringSubmatch, hm]
  | cons p ps ih =>
    intro t hleft
    have hnone : matchHere (p :: (ps ++ (label ++ t))) = none := by
      apply matchHere_none
      intro b hb
      have := hleft [] b (by simpa using hb)
      simp at this
    show FindStringSubmatch (p :: (ps ++ (label ++ t))) = _
    rw [FindStringSubmatch_cons_none _ _ hnone]
    apply ih
    intro a b hab
    have := hleft (p :: a) b (by simp [hab])
    simpa using this

/-- Without an occurrence of the label nothing matches. -/
theorem FindStringSubmatch_nil (s : Text) :
    (∀ a b, s ≠ a ++ (label ++ b)) → FindStringSubmatch s = [] := by
  induction s with
  | nil =>
    intro _
    simp [FindStringSubmatch, matchHere, label]
  | cons c cs ih =>
    intro h
    have hnone : matchHere (c :: cs) = none :=
      matchHere_none _ (fun b hb => h [] b (by simpa using hb))
    rw [FindStringSubmatch_cons_none _ _ hnone]
    apply ih
    intro a b hab
    exact h (c :: a) b (by simp [hab])

/-! ## Effects -/

@[simp] theorem Effects.none_append (a : Effects) : Effects.none.append a = a := by
  cases a
  rfl

@[simp] theorem Effects.append_none (a : Effects) : a.append Effects.none = a := by
  cases a
  simp [Effects.append, Effects.none]

theorem Effects.append_assoc (a b c : Effects) :
    (a.append b).append c = a.append (b.append c) := by
  simp [Effects.append, List.append_assoc]

@[simp] theorem Effects.append_requests (a b : Effects) :
    (a.append b).requests = a.requests ++ b.requests := rfl

@[simp] theorem Effects.append_printed (a b : Effects) :
    (a.append b).printed = a.printed ++ b.printed := rfl

@[simp] theorem Effects.append_log (a b : Effects) :
    (a.append b).log = a.log ++ b.log := rfl

@[simp] theorem logged_requests (l : Level) (m : String) (f : List Field) :
    (logged l m f).requests = [] := rfl

@[simp] theorem logged_printed (l : Level) (m : String) (f : List Field) :
    (logged l m f).printed = [] := rfl

@[simp] theorem Effects.none_requests : Effects.none.requests = [] := rfl

@[simp] theorem Effects.none_printed : Effects.none.printed = [] := rfl

/-! ## The loop over the chats -/

theorem Compare_eq_zero (a b : Text) : Compare a b = 0 ↔ a = b := by
  unfold Compare
  by_cases h : a = b
  · simp [h]
  · simp only [h, if_false, iff_false]
    split <;> decide

theorem scanChats_nil (title : Text) (remote : Remote) (k : Nat) :
    scanChats title remote k [] = (Effects.none, Outcome.ok) := rfl

/-- An iteration that goes on to its end is followed by the rest of the loop. -/
theorem scanChats_cons_ok (title : Text) (remote : Remote) (k : Nat) (c : Chat) (rest : List Chat)
    (h : (visitChat title remote k c).2 = Outcome.ok) :
    scanChats title remote k (c :: rest) =
      ((visitChat title remote k c).1.append
          (scanChats title remote (k + (visitChat title remote k c).1.requests.length) rest).1,
        (scanChats title remote (k + (visitChat title remote k c).1.requests.length) rest).2) := by
  rw [scanChats]
  simp only [h]

/-- An iteration that returns an error or panics ends the loop. -/
theorem scanChats_cons_stop (title : Text) (remote : Remote) (k : Nat) (c : Chat)
    (rest : List Chat) (h : (visitChat title remote k c).2 ≠ Outcome.ok) :
    scanChats title remote k (c :: rest) = visitChat title remote k c := by
  rw [scanChats]
  cases hv : (visitChat title remote k c).2 with
  | ok => exact absurd hv h
  | failed e =>
    simp only
    rw [← hv]
  | panicked =>
    simp only
    rw [← hv]

/-- A loop over a list that ends normally on its first part goes on with the second. -/
theorem scanChats_append_ok (title : Text) (remote : Remote) (pre : List Chat) :
    ∀ (k : Nat) (post : List Chat), (scanChats title remote k pre).2 = Outcome.ok →
      scanChats title remote k (pre ++ post) =
        ((scanChats title remote k pre).1.append
            (scanChats title remote (k + (scanChats title remote k pre).1.requests.length) post).1,
          (scanChats title remote (k + (scanChats title remote k pre).1.requests.length) post).2) := by
  induction pre with
  | nil =>
    intro k post _
    simp [scanChats_nil]
  | cons c cs ih =>
    intro k post h
    by_cases hv : (visitChat title remote k c).2 = Outcome.ok
    · rw [scanChats_cons_ok _ _ _ _ _ hv] at h
      simp only at h
      rw [List.cons_append, scanChats_cons_ok _ _ _ _ _ hv, scanChats_cons_ok _ _ _ _ _ hv,
        ih _ post h]
      simp [Effects.append_assoc, Nat.add_assoc]
    · rw [scanChats_cons_stop _ _ _ _ _ hv] at h
      exact absurd h hv

theorem visitChat_congr (title : Text) (r1 r2 : Remote) (k : Nat) (c : Chat)
    (h : r1.getParticipants = r2.getParticipants) :
    visitChat title r1 k c = visitChat title r2 k c := by
  unfold visitChat
  rw [h]

/-- The loop consults the service through `ChannelsGetParticipants` only. -/
theorem scanChats_congr (title : Text) (r1 r2 : Remote)
    (h : r1.getParticipants = r2.getParticipants) (chats : List Chat) :
    ∀ k, scanChats title r1 k chats = scanChats title r2 k chats := by
  induction chats with
  | nil => intro k; rfl
  | cons c cs ih =>
    intro k
    by_cases hv : (visitChat title r2 k c).2 = Outcome.ok
    · have hv1 : (visitChat title r1 k c).2 = Outcome.ok := by
        rw [visitChat_congr title r1 r2 k c h]; exact hv
      rw [scanChats_cons_ok _ _ _ _ _ hv, scanChats_cons_ok _ _ _ _ _ hv1,
        visitChat_congr title r1 r2 k c h, ih]
    · have hv1 : (visitChat title r1 k c).2 ≠ Outcome.ok := by
        rw [visitChat_congr title r1 r2 k c h]; exact hv
      rw [scanChats_cons_stop _ _ _ _ _ hv, scanChats_cons_stop _ _ _ _ _ hv1,
        visitChat_congr title r1 r2 k c h]

theorem run_eq_scan (title : Text) (remote : Remote) (chats : List Chat)
    (hauth : remote.auth = none) (hchats : remote.getAllChats = Except.ok chats) :
    run title remote =
      ((logged Level.info "Success auth" []).append (scanChats title remote 0 chats).1,
        (scanChats title remote 0 chats).2) := by
  unfold run
  simp [hauth, hchats]

/-! ## One iteration, case by case -/

theorem visitChat_notFull (title : Text) (remote : Remote) (k : Nat) (c : Chat)
    (h : c.asFull = none) :
    visitChat title remote k c =
      (logged Level.error "chat as full" [Field.String "chat".toList c.str], Outcome.ok) := by
  unfold visitChat
  simp [h]

theorem visitChat_other (title : Text) (remote : Remote) (k : Nat) (c : Chat) (fc : FullChat)
    (h : c.asFull = some fc) (ht : fc.title ≠ title) :
    visitChat title remote k c =
      (logged Level.info "show chat"
        [Field.Int64 "id".toList fc.id, Field.String "name".toList fc.title], Outcome.ok) := by
  unfold visitChat
  have : ¬ Compare fc.title title = 0 := fun hc => ht ((Compare_eq_zero _ _).mp hc)
  simp [h, this]

theorem visitChat_noMatch (title : Text) (remote : Remote) (k : Nat) (c : Chat) (fc : FullChat)
    (h : c.asFull = some fc) (ht : fc.title = title) (hx : extractAccessHash c.str = none) :
    visitChat title remote k c =
      (logged Level.info "show chat"
        [Field.Int64 "id".toList fc.id, Field.String "name".toList fc.title],
       Outcome.panicked) := by
  unfold visitChat
  have : Compare fc.title title = 0 := (Compare_eq_zero _ _).mpr ht
  simp [h, this, hx]

theorem visitChat_parseError (title : Text) (remote : Remote) (k : Nat) (c : Chat)
    (fc : FullChat) (v : Int) (e : NumError)
    (h : c.asFull = some fc) (ht : fc.title = title)
    (hx : extractAccessHash c.str = some (v, some e)) :
    visitChat title remote k c =
      ((logged Level.info "show chat"
          [Field.Int64 "id".toList fc.id, Field.String "name".toList fc.title]).append
        (logged Level.error "error while converting chat access hash from string to int64" []),
       Outcome.failed (Error.num e)) := by
  unfold visitChat
  have : Compare fc.title title = 0 := (Compare_eq_zero _ _).mpr ht
  simp [h, this, hx]

theorem visitChat_remoteError (title : Text) (remote : Remote) (k : Nat) (c : Chat)
    (fc : FullChat) (hash : Int) (e : Error)
    (h : c.asFull = some fc) (ht : fc.title = title)
    (hx : extractAccessHash c.str = some (hash, none))
    (hr : remote.getParticipants k ⟨c.id, hash⟩ = Except.error e) :
    visitChat title remote k c =
      (((logged Level.info "show chat"
          [Field.Int64 "id".toList fc.id, Field.String "name".toList fc.title]).append
          ⟨[], [⟨c.id, hash⟩], []⟩).append
        (logged Level.error "error while getting channel's participants" []),
       Outcome.failed e) := by
  unfold visitChat
  have : Compare fc.title title = 0 := (Compare_eq_zero _ _).mpr ht
  simp [h, this, hx, hr]

theorem visitChat_answered (title : Text) (remote : Remote) (k : Nat) (c : Chat)
    (fc : FullChat) (hash : Int) (res : ChannelParticipantsClass)
    (h : c.asFull = some fc) (ht : fc.title = title)
    (hx : extractAccessHash c.str = some (hash, none))
    (hr : remote.getParticipants k ⟨c.id, hash⟩ = Except.ok res) :
    visitChat title remote k c =
      ((((logged Level.info "show chat"
          [Field.Int64 "id".toList fc.id, Field.String "name".toList fc.title]).append
          ⟨[], [⟨c.id, hash⟩], []⟩).append
          (if res.AsModified.2 then Effects.none
            else logged Level.error "error while mapping parts" [])).append
        (reportUsers (GetUsers res.AsModified.1)).1,
       (reportUsers (GetUsers res.AsModified.1)).2) := by
  unfold visitChat
  have : Compare fc.title title = 0 := (Compare_eq_zero _ _).mpr ht
  simp [h, this, hx, hr]

/-- The scan of `pre ++ c :: post` when it reaches `c` and the iteration on `c`
does not go on to its end: what was done on `pre`, then on `c`, and nothing of
`post`. -/
theorem scanChats_stop_at (title : Text) (remote : Remote) (pre : List Chat) (c : Chat)
    (post : List Chat) (hpre : (scanChats title remote 0 pre).2 = Outcome.ok)
    (hc : (visitChat title remote (scanChats title remote 0 pre).1.requests.length c).2
      ≠ Outcome.ok) :
    scanChats title remote 0 (pre ++ c :: post) =
      ((scanChats title remote 0 pre).1.append
          (visitChat title remote (scanChats title remote 0 pre).1.requests.length c).1,
        (visitChat title remote (scanChats title remote 0 pre).1.requests.length c).2) := by
  rw [scanChats_append_ok title remote pre 0 (c :: post) hpre]
  simp only [Nat.zero_add]
  rw [scanChats_cons_stop _ _ _ _ _ hc]

/-! ## The claims on access-hash extraction -/

theorem leftmost_of_drop (pre t : Text)
    (hleft : ∀ k, k < pre.length → label.isPrefixOf ((pre ++ (label ++ t)).drop k) = false) :
    ∀ a b, pre ++ (label ++ t) = a ++ (label ++ b) → pre.length ≤ a.length := by
  intro a b hab
  by_contra hlt
  have h := hleft a.length (by omega)
  rw [hab, List.drop_left] at h
  have hp : label.isPrefixOf (label ++ b) = true := by
    rw [List.isPrefixOf_iff_prefix]
    exact List.prefix_append label b
  rw [hp] at h
  exact Bool.noConfusion h

theorem decimal_shape (n : Int) (hlo : minInt64 ≤ n) (hhi : n ≤ maxInt64) :
    ∃ ds, ds ≠ [] ∧ (∀ c ∈ ds, isDigit c = true) ∧
      (decimal n = ds ∨ decimal n = '-' :: ds) := by
  obtain ⟨habs, hnat⟩ := int64_natAbs_lt n hlo hhi
  unfold decimal
  by_cases hneg : n < 0
  · obtain ⟨h1, h2, _⟩ := natDigits_spec _ habs
    exact ⟨natDigits n.natAbs, h2, h1, Or.inr (by rw [if_pos hneg, toDigits_eq_natDigits _ habs])⟩
  · obtain ⟨h1, h2, _⟩ := natDigits_spec _ hnat
    exact ⟨natDigits n.toNat, h2, h1, Or.inl (by rw [if_neg hneg, toDigits_eq_natDigits _ hnat])⟩

/-- The group read in front of the decimal rendering of an `int64` that is not
followed by a digit is that rendering. -/
theorem captureGroup_decimal (n : Int) (rest : Text) (hlo : minInt64 ≤ n) (hhi : n ≤ maxInt64)
    (hstop : ∀ c, rest.head? = some c → isDigit c = false) :
    captureGroup (decimal n ++ rest) = decimal n := by
  obtain ⟨ds, hne, hall, h | h⟩ := decimal_shape n hlo hhi
  · rw [h]
    exact captureGroup_digits ds rest hne hall hstop
  · rw [h]
    exact captureGroup_neg_digits ds rest hne hall hstop

/-- C1: for every signed 64-bit integer `n` and every chat text whose leftmost
occurrence of the label `AccessHash:` (at offset `pre.length`: the label starts
at no earlier offset) is immediately followed by the decimal rendering of `n`
and then by the end of the text or a character that is not a digit, the
extraction of lines 97-99 does not panic, `ParseInt` reports no error, and the
value is exactly `n`. -/
theorem C1_extract_returns_rendered_int64 (n : Int) (pre rest : Text)
    (hlo : minInt64 ≤ n) (hhi : n ≤ maxInt64)
    (hleft : ∀ k, k < pre.length →
      label.isPrefixOf ((pre ++ (label ++ (decimal n ++ rest))).drop k) = false)
    (hstop : ∀ c, rest.head? = some c → isDigit c = false) :
    extractAccessHash (pre ++ (label ++ (decimal n ++ rest))) = some (n, none) := by
  unfold extractAccessHash
  rw [FindStringSubmatch_leftmost pre (decimal n ++ rest) (leftmost_of_drop pre _ hleft),
    captureGroup_decimal n rest hlo hhi hstop]
  simp [ParseInt_decimal n hlo hhi]

/-- Witness for C1: the two examples of the specification, the second inside a
longer debug text. -/
theorem C1_extract_returns_rendered_int64_witness :
    ([] ++ (label ++ (decimal 12345 ++ [])) = "AccessHash:12345".toList ∧
      extractAccessHash ([] ++ (label ++ (decimal 12345 ++ []))) = some (12345, none)) ∧
    ("Channel\x7bID:7 ".toList ++ (label ++ (decimal (-98765) ++ " Title:t\x7d".toList))
        = "Channel\x7bID:7 AccessHash:-98765 Title:t\x7d".toList ∧
      extractAccessHash
        ("Channel\x7bID:7 ".toList ++ (label ++ (decimal (-98765) ++ " Title:t\x7d".toList)))
        = some (-98765, none)) :=
  ⟨⟨by decide,
      C1_extract_returns_rendered_int64 12345 [] [] (by decide) (by decide)
        (by intro k hk; exact absurd hk (Nat.not_lt_zero k)) (by decide)⟩,
    ⟨by decide,
      C1_extract_returns_rendered_int64 (-98765) "Channel\x7bID:7 ".toList " Title:t\x7d".toList
        (by decide) (by decide) (by decide) (by decide)⟩⟩

theorem extractAccessHash_of_group (s cap : Text)
    (h : (FindStringSubmatch s).get? 1 = some cap) :
    extractAccessHash s = some (ParseInt cap) := by
  unfold extractAccessHash
  rw [h]

theorem ParseInt_two_dashes (r : Text) :
    (ParseInt ('-' :: '-' :: r)).2 =
      some ⟨"ParseInt".toList, '-' :: '-' :: r, NumErrKind.ErrSyntax⟩ := by
  have hd : digitOf '-' = none := by decide
  have hu : ParseUint ('-' :: r) =
      (0, some ⟨"ParseUint".toList, '-' :: r, NumErrKind.ErrSyntax⟩) := by
    unfold ParseUint
    rw [if_neg (by simp), parseUintLoop, hd]
  unfold ParseInt
  simp [hu]

theorem ParseInt_only_dashes (cap : Text) (hne : cap ≠ []) (hall : ∀ ch ∈ cap, ch = '-') :
    ∃ e, (ParseInt cap).2 = some e := by
  obtain ⟨c, r, rfl⟩ := List.exists_cons_of_ne_nil hne
  have hc : c = '-' := hall c (List.mem_cons_self c r)
  subst hc
  cases r with
  | nil => exact ⟨⟨"ParseInt".toList, ['-'], NumErrKind.ErrSyntax⟩, by decide⟩
  | cons c2 r2 =>
    have hc2 : c2 = '-' := hall c2 (by simp)
    subst hc2
    exact ⟨_, ParseInt_two_dashes r2⟩

/-- Every capture of one of the four invalid shapes is rejected by `ParseInt`. -/
theorem ParseInt_invalid (cap : Text)
    (hbad : cap = [] ∨ (cap ≠ [] ∧ ∀ ch ∈ cap, ch = '-') ∨ (∃ r, cap = '-' :: '-' :: r) ∨
      (∃ ds, ds ≠ [] ∧ (∀ ch ∈ ds, isDigit ch = true) ∧
        ((cap = ds ∧ 2 ^ 63 ≤ decVal ds) ∨ (cap = '-' :: ds ∧ 2 ^ 63 < decVal ds)))) :
    ∃ e, (ParseInt cap).2 = some e := by
  rcases hbad with h | ⟨hne, hall⟩ | ⟨r, h⟩ | ⟨ds, hne, hall, ⟨h, hv⟩ | ⟨h, hv⟩⟩
  · subst h
    exact ⟨⟨"ParseInt".toList, [], NumErrKind.ErrSyntax⟩, by decide⟩
  · exact ParseInt_only_dashes cap hne hall
  · subst h
    exact ⟨_, ParseInt_two_dashes r⟩
  · subst h
    rw [ParseInt_digits cap hne hall, if_neg (by omega)]
    exact ⟨_, rfl⟩
  · subst h
    rw [ParseInt_neg_digits ds hne hall, if_neg (by omega)]
    exact ⟨_, rfl⟩

/-- C9: when the scan reaches an expandable chat with the target title in
whose text the pattern matches with a first group that is no base-10 `int64`
(empty; only `-` characters; starting with two `-`; or digits, after at most
one `-`, denoting a value outside the `int64` range), `ParseInt` reports an
error, the run returns that error, and no participant request is sent and no
line printed beyond those of the chats scanned before. -/
theorem C9_invalid_capture_returns_error (title : Text) (remote : Remote) (pre : List Chat)
    (c : Chat) (post : List Chat) (fc : FullChat) (cap : Text)
    (hauth : remote.auth = none)
    (hchats : remote.getAllChats = Except.ok (pre ++ c :: post))
    (hpre : (scanChats title remote 0 pre).2 = Outcome.ok)
    (hfull : c.asFull = some fc) (htitle : fc.title = title)
    (hcap : (FindStringSubmatch c.str).get? 1 = some cap)
    (hbad : cap = [] ∨ (cap ≠ [] ∧ ∀ ch ∈ cap, ch = '-') ∨ (∃ r, cap = '-' :: '-' :: r) ∨
      (∃ ds, ds ≠ [] ∧ (∀ ch ∈ ds, isDigit ch = true) ∧
        ((cap = ds ∧ 2 ^ 63 ≤ decVal ds) ∨ (cap = '-' :: ds ∧ 2 ^ 63 < decVal ds)))) :
    ∃ e, (ParseInt cap).2 = some e ∧
      (run title remote).2 = Outcome.failed (Error.num e) ∧
      (run title remote).1.requests = (scanChats title remote 0 pre).1.requests ∧
      (run title remote).1.printed = (scanChats title remote 0 pre).1.printed := by
  obtain ⟨e, he⟩ := ParseInt_invalid cap hbad
  have hx : extractAccessHash c.str = some ((ParseInt cap).1, some e) := by
    rw [extractAccessHash_of_group _ _ hcap, ← he]
  have hv := visitChat_parseError title remote
    (scanChats title remote 0 pre).1.requests.length c fc _ e hfull htitle hx
  have hstop := scanChats_stop_at title remote pre c post hpre (by rw [hv]; simp)
  refine ⟨e, he, ?_, ?_, ?_⟩ <;>
    rw [run_eq_scan title remote _ hauth hchats, hstop, hv] <;> simp

/-- A channel with the target title whose text carries two minus signs. -/
def doubleDashChannel : Chat :=
  ⟨5, "Channel\x7bID:5 AccessHash:--5 Title:t\x7d".toList, some ⟨5, ChatTitleToParse⟩⟩

/-- A service listing `doubleDashChannel` only. -/
def doubleDashRemote : Remote :=
  ⟨none, Except.ok ([] ++ doubleDashChannel :: []), fun _ _ => Except.ok (.participants [])⟩

/-- Witness for C9: a capture starting with two minus signs. -/
theorem C9_invalid_capture_returns_error_witness :
    (FindStringSubmatch doubleDashChannel.str).get? 1 = some "--5".toList ∧
    ∃ e, (ParseInt "--5".toList).2 = some e ∧
      (run ChatTitleToParse doubleDashRemote).2 = Outcome.failed (Error.num e) ∧
      (run ChatTitleToParse doubleDashRemote).1.requests
        = (scanChats ChatTitleToParse doubleDashRemote 0 []).1.requests ∧
      (run ChatTitleToParse doubleDashRemote).1.printed
        = (scanChats ChatTitleToParse doubleDashRemote 0 []).1.printed :=
  ⟨by decide,
    C9_invalid_capture_returns_error ChatTitleToParse doubleDashRemote [] doubleDashChannel []
      ⟨5, ChatTitleToParse⟩ "--5".toList rfl rfl rfl rfl rfl (by decide)
      (Or.inr (Or.inr (Or.inl ⟨"5".toList, rfl⟩)))⟩

/-- Whenever the text of a reached, expandable chat with the target title has
no occurrence of the label, indexing the `nil` match panics. -/
theorem scanChats_no_label_panics (title : Text) (remote : Remote) (pre : List Chat)
    (c : Chat) (post : List Chat) (fc : FullChat)
    (hpre : (scanChats title remote 0 pre).2 = Outcome.ok)
    (hfull : c.asFull = some fc) (htitle : fc.title = title)
    (hno : ∀ a b, c.str ≠ a ++ (label ++ b)) :
    (scanChats title remote 0 (pre ++ c :: post)).2 = Outcome.panicked := by
  have hx : extractAccessHash c.str = none := by
    unfold extractAccessHash
    rw [FindStringSubmatch_nil _ hno]
    rfl
  have hv := visitChat_noMatch title remote
    (scanChats title remote 0 pre).1.requests.length c fc hfull htitle hx
  rw [scanChats_stop_at title remote pre c post hpre (by rw [hv]; simp), hv]

/-- A basic group with the target title: its debug text has no `AccessHash:`. -/
def basicGroup : Chat :=
  ⟨1, "Chat\x7bID:1 Title:channel title to parse ParticipantsCount:3\x7d".toList,
    some ⟨1, ChatTitleToParse⟩⟩

/-- A service listing `basicGroup` only. -/
def basicGroupRemote : Remote :=
  ⟨none, Except.ok [basicGroup], fun _ _ => Except.ok (.participants [])⟩

/-- C2, evaluated on a title-matched chat whose text has no `AccessHash:`: the
match is `nil`, the run panics at the index expression of line 98 and returns
no error value; no participant request is sent. -/
theorem C2_no_label_run_panics :
    FindStringSubmatch basicGroup.str = [] ∧
    (mainRun basicGroupRemote).2 = Outcome.panicked ∧
    (∀ e, (mainRun basicGroupRemote).2 ≠ Outcome.failed e) ∧
    (mainRun basicGroupRemote).1.requests = [] := by
  have h : (mainRun basicGroupRemote).2 = Outcome.panicked := by decide
  refine ⟨by decide, h, ?_, by decide⟩
  intro e he
  rw [h] at he
  exact Outcome.noConfusion he

/-! ## The claims on remote errors and on the scan -/

/-- C10: the first remote error aborts the run.  (1) When `MessagesGetAllChats`
fails, the run returns that error, having logged only the authentication and
the failure: no chat is scanned, no request sent, nothing printed.  (2) When
the participant request for a reached, title-matched chat fails, the run
returns that error; the failed request is the last one sent, no line is
printed for that chat, and the run is the same as if the chat list ended with
that chat: no later chat is scanned and no further call made. -/
theorem C10_first_remote_error_aborts :
    (∀ (title : Text) (remote : Remote) (e : Error),
      remote.auth = none → remote.getAllChats = Except.error e →
        (run title remote).2 = Outcome.failed e ∧
        (run title remote).1.requests = [] ∧
        (run title remote).1.printed = [] ∧
        (run title remote).1.log =
          [⟨Level.info, "Success auth".toList, []⟩, ⟨Level.error, "get all chats".toList, []⟩]) ∧
    (∀ (title : Text) (remote : Remote) (pre : List Chat) (c : Chat) (post : List Chat)
      (fc : FullChat) (hash : Int) (e : Error),
      remote.auth = none → remote.getAllChats = Except.ok (pre ++ c :: post) →
      (scanChats title remote 0 pre).2 = Outcome.ok →
      c.asFull = some fc → fc.title = title →
      extractAccessHash c.str = some (hash, none) →
      remote.getParticipants (scanChats title remote 0 pre).1.requests.length ⟨c.id, hash⟩
        = Except.error e →
        (run title remote).2 = Outcome.failed e ∧
        (run title remote).1.requests
          = (scanChats title remote 0 pre).1.requests ++ [⟨c.id, hash⟩] ∧
        (run title remote).1.printed = (scanChats title remote 0 pre).1.printed ∧
        run title remote
          = run title ⟨remote.auth, Except.ok (pre ++ c :: []), remote.getParticipants⟩) := by
  constructor
  · intro title remote e hauth hchats
    unfold run
    simp [hauth, hchats, logged, Effects.append]
  · intro title remote pre c post fc hash e hauth hchats hpre hfull htitle hx hr
    have hv := visitChat_remoteError title remote
      (scanChats title remote 0 pre).1.requests.length c fc hash e hfull htitle hx hr
    have hstop := scanChats_stop_at title remote pre c post hpre (by rw [hv]; simp)
    have hstop2 := scanChats_stop_at title remote pre c [] hpre (by rw [hv]; simp)
    have hrun := run_eq_scan title remote _ hauth hchats
    have hrun2 : run title ⟨remote.auth, Except.ok (pre ++ c :: []), remote.getParticipants⟩
        = ((logged Level.info "Success auth" []).append
            (scanChats title remote 0 (pre ++ c :: [])).1,
          (scanChats title remote 0 (pre ++ c :: [])).2) := by
      unfold run
      simp only [hauth]
      rw [scanChats_congr title ⟨none, Except.ok (pre ++ c :: []), remote.getParticipants⟩
        remote rfl]
    refine ⟨?_, ?_, ?_, ?_⟩
    · rw [hrun, hstop, hv]
    · rw [hrun, hstop, hv]
      simp
    · rw [hrun, hstop, hv]
      simp
    · rw [hrun, hrun2, hstop, hstop2]

/-- A channel with the target title and a well-formed access hash. -/
def channelA : Chat :=
  ⟨11, "Channel\x7bID:11 AccessHash:111 Title:t\x7d".toList, some ⟨11, ChatTitleToParse⟩⟩

/-- A second channel with the same title. -/
def channelB : Chat :=
  ⟨22, "Channel\x7bID:22 AccessHash:-222 Title:t\x7d".toList, some ⟨22, ChatTitleToParse⟩⟩

/-- A service whose chat list cannot be fetched. -/
def listFailsRemote : Remote :=
  ⟨none, Except.error (Error.remote "rpc".toList), fun _ _ => Except.ok (.participants [])⟩

/-- A service listing two channels with the target title and refusing every
participant request. -/
def refusingRemote : Remote :=
  ⟨none, Except.ok ([] ++ channelA :: [channelB]),
    fun _ _ => Except.error (Error.remote "flood".toList)⟩

/-- Witness for C10: a failing chat list, and a refused participant request
for the first of two channels with the target title. -/
theorem C10_first_remote_error_aborts_witness :
    ((run ChatTitleToParse listFailsRemote).2 = Outcome.failed (Error.remote "rpc".toList) ∧
      (run ChatTitleToParse listFailsRemote).1.requests = [] ∧
      (run ChatTitleToParse listFailsRemote).1.printed = [] ∧
      (run ChatTitleToParse listFailsRemote).1.log =
        [⟨Level.info, "Success auth".toList, []⟩,
          ⟨Level.error, "get all chats".toList, []⟩]) ∧
    ((run ChatTitleToParse refusingRemote).2 = Outcome.failed (Error.remote "flood".toList) ∧
      (run ChatTitleToParse refusingRemote).1.requests
        = (scanChats ChatTitleToParse refusingRemote 0 []).1.requests ++ [⟨channelA.id, 111⟩] ∧
      (run ChatTitleToParse refusingRemote).1.printed
        = (scanChats ChatTitleToParse refusingRemote 0 []).1.printed ∧
      run ChatTitleToParse refusingRemote
        = run ChatTitleToParse
            ⟨refusingRemote.auth, Except.ok ([] ++ channelA :: []),
              refusingRemote.getParticipants⟩) :=
  ⟨C10_first_remote_error_aborts.1 ChatTitleToParse listFailsRemote (Error.remote "rpc".toList)
      rfl rfl,
    C10_first_remote_error_aborts.2 ChatTitleToParse refusingRemote [] channelA [channelB]
      ⟨11, ChatTitleToParse⟩ 111 (Error.remote "flood".toList) rfl rfl rfl rfl rfl
      (by decide) rfl⟩

theorem scanChats_noTarget (title : Text) (remote : Remote) (chats : List Chat) :
    ∀ k, (∀ c ∈ chats, ∀ fc, c.asFull = some fc → fc.title ≠ title) →
      (scanChats title remote k chats).2 = Outcome.ok ∧
      (scanChats title remote k chats).1.requests = [] ∧
      (scanChats title remote k chats).1.printed = [] := by
  induction chats with
  | nil => intro k _; exact ⟨rfl, rfl, rfl⟩
  | cons c cs ih =>
    intro k h
    have hcs : ∀ x ∈ cs, ∀ fc, x.asFull = some fc → fc.title ≠ title :=
      fun x hx => h x (List.mem_cons_of_mem c hx)
    have hv : (visitChat title remote k c).2 = Outcome.ok ∧
        (visitChat title remote k c).1.requests = [] ∧
        (visitChat title remote k c).1.printed = [] := by
      cases hf : c.asFull with
      | none => rw [visitChat_notFull _ _ _ _ hf]; exact ⟨rfl, rfl, rfl⟩
      | some fc =>
        rw [visitChat_other _ _ _ _ fc hf (h c (List.mem_cons_self c cs) fc hf)]
        exact ⟨rfl, rfl, rfl⟩
    obtain ⟨h1, h2, h3⟩ := hv
    obtain ⟨i1, i2, i3⟩ := ih (k + (visitChat title remote k c).1.requests.length) hcs
    rw [scanChats_cons_ok _ _ _ _ _ h1]
    refine ⟨i1, ?_, ?_⟩
    · rw [Effects.append_requests, i2, h2]
      rfl
    · rw [Effects.append_printed, i3, h3]
      rfl

/-- C6: when the chat list is fetched and no chat of it expands to a record
whose title equals the target title, the run sends no participant request,
prints no line, and returns `nil`. -/
theorem C6_no_title_match_is_noop (title : Text) (remote : Remote) (chats : List Chat)
    (hauth : remote.auth = none) (hchats : remote.getAllChats = Except.ok chats)
    (hnone : ∀ c ∈ chats, ∀ fc, c.asFull = some fc → fc.title ≠ title) :
    (run title remote).2 = Outcome.ok ∧
    (run title remote).1.requests = [] ∧
    (run title remote).1.printed = [] := by
  obtain ⟨h1, h2, h3⟩ := scanChats_noTarget title remote chats 0 hnone
  rw [run_eq_scan title remote chats hauth hchats]
  simp [h1, h2, h3]

/-- A channel with another title. -/
def otherChannel : Chat :=
  ⟨33, "Channel\x7bID:33 AccessHash:333 Title:o\x7d".toList, some ⟨33, "other".toList⟩⟩

/-- A chat that does not expand to a full record. -/
def forbiddenChat : Chat :=
  ⟨44, "ChatForbidden\x7bID:44 Title:channel title to parse\x7d".toList, none⟩

/-- A service listing no chat with the target title. -/
def noTargetRemote : Remote :=
  ⟨none, Except.ok [otherChannel, forbiddenChat], fun _ _ => Except.ok (.participants [])⟩

/-- Witness for C6: a list with a channel of another title and a chat that
does not expand. -/
theorem C6_no_title_match_is_noop_witness :
    (mainRun noTargetRemote).2 = Outcome.ok ∧
    (mainRun noTargetRemote).1.requests = [] ∧
    (mainRun noTargetRemote).1.printed = [] :=
  C6_no_title_match_is_noop ChatTitleToParse noTargetRemote [otherChannel, forbiddenChat]
    rfl rfl (by decide)

theorem scanChats_filter_full (title : Text) (remote : Remote) (chats : List Chat) :
    ∀ k, (scanChats title remote k chats).2
        = (scanChats title remote k (chats.filter (fun c => c.asFull.isSome))).2 ∧
      (scanChats title remote k chats).1.requests
        = (scanChats title remote k (chats.filter (fun c => c.asFull.isSome))).1.requests ∧
      (scanChats title remote k chats).1.printed
        = (scanChats title remote k (chats.filter (fun c => c.asFull.isSome))).1.printed := by
  induction chats with
  | nil => intro k; exact ⟨rfl, rfl, rfl⟩
  | cons c cs ih =>
    intro k
    cases hf : c.asFull with
    | none =>
      have hv := visitChat_notFull title remote k c hf
      have hok : (visitChat title remote k c).2 = Outcome.ok := by rw [hv]
      have hfil : (c :: cs).filter (fun c => c.asFull.isSome)
          = cs.filter (fun c => c.asFull.isSome) := by
        simp [List.filter_cons, hf]
      rw [hfil, scanChats_cons_ok _ _ _ _ _ hok, hv]
      obtain ⟨i1, i2, i3⟩ := ih k
      simp [i1, i2, i3]
    | some fc =>
      have hfil : (c :: cs).filter (fun c => c.asFull.isSome)
          = c :: cs.filter (fun c => c.asFull.isSome) := by
        simp [List.filter_cons, hf]
      rw [hfil]
      by_cases hok : (visitChat title remote k c).2 = Outcome.ok
      · rw [scanChats_cons_ok _ _ _ _ _ hok, scanChats_cons_ok _ _ _ _ _ hok]
        obtain ⟨i1, i2, i3⟩ := ih (k + (visitChat title remote k c).1.requests.length)
        simp [i1, i2, i3]
      · rw [scanChats_cons_stop _ _ _ _ _ hok, scanChats_cons_stop _ _ _ _ _ hok]
        exact ⟨rfl, rfl, rfl⟩

/-- The log entry written for a chat that does not expand to a full record. -/
def notFullEntry (c : Chat) : LogEntry :=
  ⟨Level.error, "chat as full".toList, [Field.String "chat".toList c.str]⟩

/-- The loop on a chat that does not expand: its error entry, then the loop on
the rest, with the same count of requests. -/
theorem scanChats_cons_notFull (title : Text) (remote : Remote) (k : Nat) (c : Chat)
    (rest : List Chat) (hf : c.asFull = none) :
    scanChats title remote k (c :: rest) =
      ((⟨[notFullEntry c], [], []⟩ : Effects).append (scanChats title remote k rest).1,
        (scanChats title remote k rest).2) := by
  have hv := visitChat_notFull title remote k c hf
  have hok : (visitChat title remote k c).2 = Outcome.ok := by rw [hv]
  rw [scanChats_cons_ok _ _ _ _ _ hok, hv]
  rfl

/-- In a loop that ends normally every chat that does not expand has its entry
in the log. -/
theorem scanChats_logs_notFull (title : Text) (remote : Remote) (chats : List Chat) :
    ∀ k, (scanChats title remote k chats).2 = Outcome.ok →
      ∀ c ∈ chats, c.asFull = none → notFullEntry c ∈ (scanChats title remote k chats).1.log := by
  induction chats with
  | nil =>
    intro k _ c hc
    exact absurd hc (List.not_mem_nil c)
  | cons d ds ih =>
    intro k hok c hc hf
    by_cases hv : (visitChat title remote k d).2 = Outcome.ok
    · rw [scanChats_cons_ok _ _ _ _ _ hv] at hok ⊢
      rw [Effects.append_log]
      rcases List.mem_cons.mp hc with hcd | hcds
      · subst hcd
        rw [visitChat_notFull _ _ _ _ hf]
        exact List.mem_append_left _ (List.mem_cons_self _ _)
      · exact List.mem_append_right _ (ih _ hok c hcds hf)
    · rw [scanChats_cons_stop _ _ _ _ _ hv] at hok
      exact absurd hok hv

/-- C8: a chat that does not expand to a full record is logged (an error entry
with its text) and the loop goes on.  (1-3) For every chat list the run ends
the same way, sends the same participant requests and prints the same lines as
on the list with the chats that do not expand removed.  (4) One iteration on
such a chat writes its entry and goes on.  (5) The loop on a list headed by
such a chat is its entry followed by the loop on the rest, with the same count
of requests.  (6) A run that reaches such a chat is: the authentication entry,
what was done on the chats before it, its entry, then the loop on the chats
after it, whose outcome is that of the run.  (7) In a run that returns `nil`,
every chat of the list that does not expand has its entry in the log. -/
theorem C8_unexpandable_chats_are_skipped (title : Text) (auth : Option Error)
    (chats : List Chat)
    (getParticipants : Nat → InputChannel → Except Error ChannelParticipantsClass) :
    (run title ⟨auth, Except.ok chats, getParticipants⟩).2
      = (run title
          ⟨auth, Except.ok (chats.filter (fun c => c.asFull.isSome)), getParticipants⟩).2 ∧
    (run title ⟨auth, Except.ok chats, getParticipants⟩).1.requests
      = (run title
          ⟨auth, Except.ok (chats.filter (fun c => c.asFull.isSome)),
            getParticipants⟩).1.requests ∧
    (run title ⟨auth, Except.ok chats, getParticipants⟩).1.printed
      = (run title
          ⟨auth, Except.ok (chats.filter (fun c => c.asFull.isSome)),
            getParticipants⟩).1.printed ∧
    (∀ (k : Nat) (c : Chat), c.asFull = none →
      visitChat title ⟨auth, Except.ok chats, getParticipants⟩ k c
        = (⟨[⟨Level.error, "chat as full".toList, [Field.String "chat".toList c.str]⟩], [], []⟩,
            Outcome.ok)) ∧
    (∀ (k : Nat) (c : Chat) (rest : List Chat), c.asFull = none →
      scanChats title ⟨auth, Except.ok chats, getParticipants⟩ k (c :: rest)
        = ((⟨[notFullEntry c], [], []⟩ : Effects).append
            (scanChats title ⟨auth, Except.ok chats, getParticipants⟩ k rest).1,
          (scanChats title ⟨auth, Except.ok chats, getParticipants⟩ k rest).2)) ∧
    (∀ (pre : List Chat) (c : Chat) (post : List Chat),
      auth = none → chats = pre ++ c :: post → c.asFull = none →
      (scanChats title ⟨auth, Except.ok chats, getParticipants⟩ 0 pre).2 = Outcome.ok →
      run title ⟨auth, Except.ok chats, getParticipants⟩
        = ((((⟨[⟨Level.info, "Success auth".toList, []⟩], [], []⟩ : Effects).append
              (scanChats title ⟨auth, Except.ok chats, getParticipants⟩ 0 pre).1).append
              ⟨[notFullEntry c], [], []⟩).append
            (scanChats title ⟨auth, Except.ok chats, getParticipants⟩
              (scanChats title ⟨auth, Except.ok chats, getParticipants⟩ 0 pre).1.requests.length
              post).1,
          (scanChats title ⟨auth, Except.ok chats, getParticipants⟩
            (scanChats title ⟨auth, Except.ok chats, getParticipants⟩ 0 pre).1.requests.length
            post).2)) ∧
    (auth = none → (run title ⟨auth, Except.ok chats, getParticipants⟩).2 = Outcome.ok →
      ∀ c ∈ chats, c.asFull = none →
        notFullEntry c ∈ (run title ⟨auth, Except.ok chats, getParticipants⟩).1.log) := by
  have hcongr := scanChats_congr title
    ⟨auth, Except.ok (chats.filter (fun c => c.asFull.isSome)), getParticipants⟩
    ⟨auth, Except.ok chats, getParticipants⟩ rfl
  obtain ⟨h1, h2, h3⟩ :=
    scanChats_filter_full title ⟨auth, Except.ok chats, getParticipants⟩ chats 0
  refine ⟨?_, ?_, ?_, ?_, ?_, ?_, ?_⟩
  · cases auth with
    | some e => rfl
    | none =>
      rw [run_eq_scan title _ chats rfl rfl, run_eq_scan title _ _ rfl rfl, hcongr]
      exact h1
  · cases auth with
    | some e => rfl
    | none =>
      rw [run_eq_scan title _ chats rfl rfl, run_eq_scan title _ _ rfl rfl, hcongr]
      simp [h2]
  · cases auth with
    | some e => rfl
    | none =>
      rw [run_eq_scan title _ chats rfl rfl, run_eq_scan title _ _ rfl rfl, hcongr]
      simp [h3]
  · intro k c hf
    rw [visitChat_notFull _ _ _ _ hf]
    rfl
  · intro k c rest hf
    exact scanChats_cons_notFull title _ k c rest hf
  · intro pre c post hauth hsplit hf hpre
    subst hauth
    rw [run_eq_scan title _ chats rfl rfl]
    have happ := scanChats_append_ok title ⟨none, Except.ok chats, getParticipants⟩ pre 0
      (c :: post) hpre
    rw [hsplit] at happ ⊢
    rw [happ, Nat.zero_add, scanChats_cons_notFull title _ _ c post hf]
    simp only [Effects.append_assoc]
    rfl
  · intro hauth hok c hc hf
    subst hauth
    rw [run_eq_scan title _ chats rfl rfl] at hok ⊢
    rw [Effects.append_log]
    exact List.mem_append_right _
      (scanChats_logs_notFull title _ chats 0 hok c hc hf)

/-- A service listing a chat that does not expand, then a channel with the
target title, and answering the participant request. -/
def forbiddenFirstRemote : Remote :=
  ⟨none, Except.ok ([] ++ forbiddenChat :: [channelA]),
    fun _ _ => Except.ok (.participants [UserClass.user 42 (some "alice".toList) none])⟩

/-- Witness for C8: the chat that does not expand is logged, and the channel
after it is still looked up and reported. -/
theorem C8_unexpandable_chats_are_skipped_witness :
    run ChatTitleToParse forbiddenFirstRemote
      = ((((⟨[⟨Level.info, "Success auth".toList, []⟩], [], []⟩ : Effects).append
            (scanChats ChatTitleToParse forbiddenFirstRemote 0 []).1).append
            ⟨[notFullEntry forbiddenChat], [], []⟩).append
          (scanChats ChatTitleToParse forbiddenFirstRemote
            (scanChats ChatTitleToParse forbiddenFirstRemote 0 []).1.requests.length
            [channelA]).1,
        (scanChats ChatTitleToParse forbiddenFirstRemote
          (scanChats ChatTitleToParse forbiddenFirstRemote 0 []).1.requests.length
          [channelA]).2) ∧
    (run ChatTitleToParse forbiddenFirstRemote).2 = Outcome.ok ∧
    (run ChatTitleToParse forbiddenFirstRemote).1.requests = [⟨11, 111⟩] ∧
    (run ChatTitleToParse forbiddenFirstRemote).1.printed
      = ["UserId: 42 Username: alice".toList] ∧
    (run ChatTitleToParse forbiddenFirstRemote).1.log
      = [⟨Level.info, "Success auth".toList, []⟩,
          ⟨Level.error, "chat as full".toList,
            [Field.String "chat".toList forbiddenChat.str]⟩,
          ⟨Level.info, "show chat".toList,
            [Field.Int64 "id".toList 11, Field.String "name".toList ChatTitleToParse]⟩] :=
  ⟨(C8_unexpandable_chats_are_skipped ChatTitleToParse none ([] ++ forbiddenChat :: [channelA])
      forbiddenFirstRemote.getParticipants).2.2.2.2.2.1 [] forbiddenChat [channelA]
      rfl rfl rfl rfl,
    by decide, by decide, by decide, by decide⟩

/-! ## Which chats are looked up -/

/-- Whether a chat expands to a full record with the target title. -/
def isTarget (title : Text) (c : Chat) : Bool :=
  match c.asFull with
  | some fc => decide (fc.title = title)
  | none => false

/-- The participant request the text of a chat gives rise to, if its access
hash can be extracted. -/
def requestFor (c : Chat) : Option InputChannel :=
  match extractAccessHash c.str with
  | some (hash, none) => some ⟨c.id, hash⟩
  | _ => none

/-- The lines printed for a sequence of participant requests, the first being
the `k`-th of the run: for each answered request, the lines of its users (up to
a user that is no `*tg.User`). -/
def printedFor (remote : Remote) : Nat → List InputChannel → List Text
  | _, [] => []
  | k, req :: rest =>
    (match remote.getParticipants k req with
      | Except.ok res => (reportUsers (GetUsers res.AsModified.1)).1.printed
      | Except.error _ => []) ++ printedFor remote (k + 1) rest

theorem reportUsers_requests (users : List UserClass) :
    (reportUsers users).1.requests = [] := by
  induction users with
  | nil => rfl
  | cons u us ih =>
    cases u with
    | userEmpty id => rfl
    | user id username phone =>
      cases username <;> cases phone <;>
        simp [reportUsers, ih, Effects.none, Effects.append, logged]

theorem printedFor_cons (remote : Remote) (k : Nat) (req : InputChannel)
    (rest : List InputChannel) :
    printedFor remote k (req :: rest) =
      (match remote.getParticipants k req with
        | Except.ok res => (reportUsers (GetUsers res.AsModified.1)).1.printed
        | Except.error _ => []) ++ printedFor remote (k + 1) rest := rfl

/-- One iteration either sends nothing and prints nothing (going on exactly
when the chat is no target), or sends the request of a target chat and prints
the lines of its answer. -/
theorem visitChat_cases (title : Text) (remote : Remote) (k : Nat) (c : Chat) :
    (isTarget title c = false ∧ (visitChat title remote k c).2 = Outcome.ok ∧
      (visitChat title remote k c).1.requests = [] ∧
      (visitChat title remote k c).1.printed = []) ∨
    (isTarget title c = true ∧ requestFor c = none ∧
      (visitChat title remote k c).2 ≠ Outcome.ok ∧
      (visitChat title remote k c).1.requests = [] ∧
      (visitChat title remote k c).1.printed = []) ∨
    (isTarget title c = true ∧ ∃ req, requestFor c = some req ∧
      (visitChat title remote k c).1.requests = [req] ∧
      (visitChat title remote k c).1.printed = printedFor remote k [req]) := by
  cases hf : c.asFull with
  | none =>
    left
    rw [visitChat_notFull _ _ _ _ hf]
    exact ⟨by simp [isTarget, hf], rfl, rfl, rfl⟩
  | some fc =>
    by_cases ht : fc.title = title
    · right
      have htar : isTarget title c = true := by simp [isTarget, hf, ht]
      cases hx : extractAccessHash c.str with
      | none =>
        left
        rw [visitChat_noMatch _ _ _ _ fc hf ht hx]
        exact ⟨htar, by simp [requestFor, hx], by simp, rfl, rfl⟩
      | some r =>
        obtain ⟨v, oe⟩ := r
        cases oe with
        | some e =>
          left
          rw [visitChat_parseError _ _ _ _ fc v e hf ht hx]
          exact ⟨htar, by simp [requestFor, hx], by simp, rfl, rfl⟩
        | none =>
          right
          refine ⟨htar, ⟨c.id, v⟩, by simp [requestFor, hx], ?_⟩
          cases hr : remote.getParticipants k ⟨c.id, v⟩ with
          | error e =>
            rw [visitChat_remoteError _ _ _ _ fc v e hf ht hx hr]
            simp [printedFor, hr]
          | ok res =>
            rw [visitChat_answered _ _ _ _ fc v res hf ht hx hr]
            refine ⟨by cases res <;>
              simp [ChannelParticipantsClass.AsModified, reportUsers_requests], ?_⟩
            cases res <;> simp [printedFor, hr, ChannelParticipantsClass.AsModified]
    · left
      rw [visitChat_other _ _ _ _ fc hf ht]
      exact ⟨by simp [isTarget, hf, ht], rfl, rfl, rfl⟩

theorem printedFor_append (remote : Remote) (a : List InputChannel) :
    ∀ (k : Nat) (b : List InputChannel),
      printedFor remote k (a ++ b) = printedFor remote k a ++ printedFor remote (k + a.length) b := by
  induction a with
  | nil => intro k b; simp [printedFor]
  | cons r rs ih =>
    intro k b
    rw [List.cons_append, printedFor_cons, printedFor_cons, ih, List.append_assoc,
      List.length_cons, Nat.add_assoc, Nat.add_comm 1 rs.length]

/-- The requests of the loop are those of the target chats, in order, up to the
point where it ends; all of them when it ends normally; and the lines printed
are those of the answers. -/
theorem scanChats_requests (title : Text) (remote : Remote) (chats : List Chat) :
    ∀ k, ((scanChats title remote k chats).1.requests.map some
          <+: (chats.filter (isTarget title)).map requestFor) ∧
      ((scanChats title remote k chats).2 = Outcome.ok →
        (scanChats title remote k chats).1.requests.map some
          = (chats.filter (isTarget title)).map requestFor) ∧
      (scanChats title remote k chats).1.printed
        = printedFor remote k (scanChats title remote k chats).1.requests := by
  induction chats with
  | nil =>
    intro k
    exact ⟨List.prefix_refl _, fun _ => rfl, rfl⟩
  | cons c cs ih =>
    intro k
    obtain ⟨i1, i2, i3⟩ := ih (k + (visitChat title remote k c).1.requests.length)
    rcases visitChat_cases title remote k c with
      ⟨ht, hok, hreq, hpr⟩ | ⟨ht, hnone, hstop, hreq, hpr⟩ | ⟨ht, req, hsome, hreq, hpr⟩
    · have hfil : (c :: cs).filter (isTarget title) = cs.filter (isTarget title) := by
        simp [List.filter_cons, ht]
      rw [scanChats_cons_ok _ _ _ _ _ hok, hfil]
      simp only [Effects.append_requests, Effects.append_printed]
      rw [hreq] at i1 i2 i3 ⊢
      rw [hpr]
      simpa using ⟨i1, i2, i3⟩
    · have hfil : (c :: cs).filter (isTarget title) = c :: cs.filter (isTarget title) := by
        simp [List.filter_cons, ht]
      rw [scanChats_cons_stop _ _ _ _ _ hstop, hfil, hreq, hpr]
      refine ⟨by simp, fun h => absurd h hstop, rfl⟩
    · have hfil : (c :: cs).filter (isTarget title) = c :: cs.filter (isTarget title) := by
        simp [List.filter_cons, ht]
      rw [hfil, List.map_cons, hsome]
      by_cases hok : (visitChat title remote k c).2 = Outcome.ok
      · rw [scanChats_cons_ok _ _ _ _ _ hok]
        simp only [Effects.append_requests, Effects.append_printed]
        rw [hreq] at i1 i2 i3 ⊢
        rw [hpr, i3]
        refine ⟨?_, ?_, ?_⟩
        · simpa using (List.prefix_cons_inj (some req)).mpr i1
        · intro h
          simpa using i2 h
        · rw [printedFor_append]
      · rw [scanChats_cons_stop _ _ _ _ _ hok, hreq, hpr]
        refine ⟨?_, fun h => absurd h hok, rfl⟩
        simp only [List.map_cons, List.map_nil]
        exact (List.prefix_cons_inj (some req)).mpr List.nil_prefix

/-- The requests of a loop that reaches a chat on which the iteration does not
go on to its end: those of the target chats before it, each one of them, then
the request of that chat when its access hash was extracted. -/
theorem scanChats_requests_stop (title : Text) (remote : Remote) (pre : List Chat) (c : Chat)
    (post : List Chat) (hpre : (scanChats title remote 0 pre).2 = Outcome.ok)
    (hc : (visitChat title remote (scanChats title remote 0 pre).1.requests.length c).2
      ≠ Outcome.ok) :
    (scanChats title remote 0 (pre ++ c :: post)).1.requests.map some
        = (pre.filter (isTarget title)).map requestFor ++ (requestFor c).toList.map some ∧
      isTarget title c = true ∧
      (scanChats title remote 0 (pre ++ c :: post)).2
        = (visitChat title remote (scanChats title remote 0 pre).1.requests.length c).2 := by
  obtain ⟨_, hall, _⟩ := scanChats_requests title remote pre 0
  have hreqs := hall hpre
  rw [scanChats_stop_at title remote pre c post hpre hc]
  rcases visitChat_cases title remote (scanChats title remote 0 pre).1.requests.length c with
    ⟨_, hok, _, _⟩ | ⟨ht, hnone, _, hreq, _⟩ | ⟨ht, req, hsome, hreq, _⟩
  · exact absurd hok hc
  · refine ⟨?_, ht, rfl⟩
    rw [Effects.append_requests, hreq, hnone, List.map_append, hreqs]
    rfl
  · refine ⟨?_, ht, rfl⟩
    rw [Effects.append_requests, hreq, hsome, List.map_append, hreqs]
    rfl

/-- C3, as the code has it: with the chat list fetched, (1) the participant
requests of a run are those of the chats that expand to a full record with the
target title, in the returned order, up to the point where the run ends;
(2) when the run returns `nil`, each such chat was looked up, later ones with
the same title included; (3) when the run reaches a chat on which the
iteration ends with an error or a panic, that chat has the target title, the
run ends as that iteration does, and the requests are exactly those of every
target chat before it, followed by the request of that chat when its access
hash was extracted; (4) the lines printed are those of the answers to the
requests. -/
theorem C3_every_title_match_is_looked_up (title : Text) (remote : Remote) (chats : List Chat)
    (hauth : remote.auth = none) (hchats : remote.getAllChats = Except.ok chats) :
    ((run title remote).1.requests.map some
        <+: (chats.filter (isTarget title)).map requestFor) ∧
    ((run title remote).2 = Outcome.ok →
      (run title remote).1.requests.map some
        = (chats.filter (isTarget title)).map requestFor) ∧
    (∀ (pre : List Chat) (c : Chat) (post : List Chat), chats = pre ++ c :: post →
      (scanChats title remote 0 pre).2 = Outcome.ok →
      (visitChat title remote (scanChats title remote 0 pre).1.requests.length c).2
        ≠ Outcome.ok →
      (run title remote).1.requests.map some
          = (pre.filter (isTarget title)).map requestFor ++ (requestFor c).toList.map some ∧
        isTarget title c = true ∧
        (run title remote).2
          = (visitChat title remote (scanChats title remote 0 pre).1.requests.length c).2) ∧
    (run title remote).1.printed = printedFor remote 0 (run title remote).1.requests := by
  obtain ⟨h1, h2, h3⟩ := scanChats_requests title remote chats 0
  rw [run_eq_scan title remote chats hauth hchats]
  refine ⟨by simpa using h1, by simpa using h2, ?_, by simpa using h3⟩
  intro pre c post hsplit hpre hc
  subst hsplit
  obtain ⟨g1, g2, g3⟩ := scanChats_requests_stop title remote pre c post hpre hc
  exact ⟨by simpa using g1, g2, g3⟩

/-- The members answered for a channel, by its id. -/
def membersOf (req : InputChannel) : List UserClass :=
  if req.ChannelID = 11 then [UserClass.user 42 (some "alice".toList) none]
  else [UserClass.user 7 none (some "+15551234567".toList)]

/-- A service listing two channels with the target title, a channel of another
title between them, and answering every participant request. -/
def twoTargetsRemote : Remote :=
  ⟨none, Except.ok [channelA, otherChannel, channelB],
    fun _ req => Except.ok (.participants (membersOf req))⟩

/-- Counterexample to C3 as stated: with two channels of the target title in
the list, participants are requested and printed for both, the later one
included, so for more than one chat. -/
theorem C3_second_match_is_looked_up :
    (mainRun twoTargetsRemote).1.requests = [⟨11, 111⟩, ⟨22, -222⟩] ∧
    (mainRun twoTargetsRemote).1.printed
      = ["UserId: 42 Username: alice".toList, "UserId: 7 Phone: +15551234567".toList] ∧
    ¬ ((mainRun twoTargetsRemote).1.requests.length ≤ 1) := by
  decide

/-- A service listing a channel with the target title, then a basic group with
the same title (no access hash in its text), and answering every request. -/
def targetThenGroupRemote : Remote :=
  ⟨none, Except.ok ([channelA] ++ basicGroup :: []),
    fun _ req => Except.ok (.participants (membersOf req))⟩

/-- Witness for C3 as amended: the run over two channels of the target title
returns `nil` and has looked up both; the run over a channel and a basic group
of the target title has looked up the channel, printed its member, and then
panicked on the group. -/
theorem C3_every_title_match_is_looked_up_witness :
    ((run ChatTitleToParse twoTargetsRemote).2 = Outcome.ok ∧
      (run ChatTitleToParse twoTargetsRemote).1.requests.map some
        = ([channelA, otherChannel, channelB].filter (isTarget ChatTitleToParse)).map
            requestFor ∧
      (run ChatTitleToParse twoTargetsRemote).1.printed
        = printedFor twoTargetsRemote 0 (run ChatTitleToParse twoTargetsRemote).1.requests) ∧
    (((run ChatTitleToParse targetThenGroupRemote).1.requests.map some
          = ([channelA].filter (isTarget ChatTitleToParse)).map requestFor
              ++ (requestFor basicGroup).toList.map some ∧
        isTarget ChatTitleToParse basicGroup = true ∧
        (run ChatTitleToParse targetThenGroupRemote).2
          = (visitChat ChatTitleToParse targetThenGroupRemote
              (scanChats ChatTitleToParse targetThenGroupRemote 0 [channelA]).1.requests.length
              basicGroup).2) ∧
      (run ChatTitleToParse targetThenGroupRemote).1.requests = [⟨11, 111⟩] ∧
      (run ChatTitleToParse targetThenGroupRemote).1.printed
        = ["UserId: 42 Username: alice".toList] ∧
      (run ChatTitleToParse targetThenGroupRemote).2 = Outcome.panicked) :=
  ⟨⟨by decide,
      (C3_every_title_match_is_looked_up ChatTitleToParse twoTargetsRemote
        [channelA, otherChannel, channelB] rfl rfl).2.1 (by decide),
      (C3_every_title_match_is_looked_up ChatTitleToParse twoTargetsRemote
        [channelA, otherChannel, channelB] rfl rfl).2.2.2⟩,
    ⟨(C3_every_title_match_is_looked_up ChatTitleToParse targetThenGroupRemote
        ([channelA] ++ basicGroup :: []) rfl rfl).2.2.1 [channelA] basicGroup [] rfl
        (by decide) (by decide),
      by decide, by decide, by decide⟩⟩

/-! ## The claims on the participant report -/

theorem Join_four (a b c d sep : Text) :
    Join [a, b, c, d] sep = a ++ sep ++ (b ++ sep ++ (c ++ sep ++ d)) := rfl

/-- C4: for a participant with an `int64` id `i`, whatever users follow: with
a username `u` (a phone being present or not) the line printed is exactly
`UserId: <decimal i> Username: <u>`; with no username and a phone `p` it is
exactly `UserId: <decimal i> Phone: <p>`; in both cases nothing is logged for
that participant. -/
theorem C4_participant_line (i : Int) (u p : Text) (other : Option Text)
    (rest : List UserClass) (hlo : minInt64 ≤ i) (hhi : i ≤ maxInt64) :
    ((reportUsers (UserClass.user i (some u) other :: rest)).1.printed
        = ("UserId: ".toList ++ decimal i ++ " Username: ".toList ++ u)
            :: (reportUsers rest).1.printed ∧
      (reportUsers (UserClass.user i (some u) other :: rest)).1.log
        = (reportUsers rest).1.log) ∧
    ((reportUsers (UserClass.user i none (some p) :: rest)).1.printed
        = ("UserId: ".toList ++ decimal i ++ " Phone: ".toList ++ p)
            :: (reportUsers rest).1.printed ∧
      (reportUsers (UserClass.user i none (some p) :: rest)).1.log
        = (reportUsers rest).1.log) := by
  have hi := Itoa_eq_decimal i hlo hhi
  refine ⟨⟨?_, ?_⟩, ⟨?_, ?_⟩⟩ <;>
    simp [reportUsers, Join_four, hi, Effects.append, Effects.none]

/-- Witness for C4: the two examples of the specification. -/
theorem C4_participant_line_witness :
    (reportUsers [UserClass.user 42 (some "alice".toList) none]).1.printed
      = ["UserId: 42 Username: alice".toList] ∧
    (reportUsers [UserClass.user 7 none (some "+15551234567".toList)]).1.printed
      = ["UserId: 7 Phone: +15551234567".toList] :=
  ⟨(C4_participant_line 42 "alice".toList [] none [] (by decide) (by decide)).1.1.trans
      (by decide),
    (C4_participant_line 7 [] "+15551234567".toList none [] (by decide) (by decide)).2.1.trans
      (by decide)⟩

/-- C5, evaluated on a participant with neither username nor phone followed by
one with a username: the error is logged, and a line with an empty phone is
printed for the first all the same; the line of the second is as usual. -/
theorem C5_no_contact_user_is_printed :
    reportUsers [UserClass.user 7 none none, UserClass.user 42 (some "alice".toList) none]
      = (⟨[⟨Level.error, "cannot get user name or phone".toList, []⟩], [],
          ["UserId: 7 Phone: ".toList, "UserId: 42 Username: alice".toList]⟩, Outcome.ok) := by
  decide

/-- A service listing one channel with the target title and answering the
participant request with "not modified". -/
def notModifiedRemote : Remote :=
  ⟨none, Except.ok [channelA], fun _ _ => Except.ok ChannelParticipantsClass.notModified⟩

/-- C7, evaluated on a "not modified" participant answer: the failed
conversion is logged, no line is printed, and the run goes on and returns
`nil`; no error reaches the caller. -/
theorem C7_not_modified_run_returns_nil :
    (mainRun notModifiedRemote).2 = Outcome.ok ∧
    (mainRun notModifiedRemote).1.requests = [⟨11, 111⟩] ∧
    (mainRun notModifiedRemote).1.printed = [] ∧
    (mainRun notModifiedRemote).1.log =
      [⟨Level.info, "Success auth".toList, []⟩,
        ⟨Level.info, "show chat".toList,
          [Field.Int64 "id".toList 11, Field.String "name".toList ChatTitleToParse]⟩,
        ⟨Level.error, "error while mapping parts".toList, []⟩] := by
  decide

end GroupsScrapper
